import Mathlib

/-!
Shallow embedding of `src/index.js` of the aws-os-dashboards repository: a
SigV4 signing proxy in front of an AWS Elasticsearch/OpenSearch endpoint.

JavaScript option/falsiness semantics are modelled explicitly: an absent or
`undefined` string value is `Option.none`, and `a || b` on strings is `jsOr`
(an empty string is falsy).  Header objects are JS objects whose properties
may hold `undefined`, modelled as association lists with `Option String`
values and case-sensitive keys, exactly as JS property access behaves.
-/

set_option autoImplicit false

namespace AwsOsDash

/-- JS truthiness of a possibly-absent string: `undefined` and `""` are falsy. -/
def jsTruthy : Option String → Bool
  | none => false
  | some s => !(s == "")

/-- JS `a || b` on possibly-absent strings (`undefined` and `""` fall through). -/
def jsOr (a b : Option String) : Option String :=
  match a with
  | none => b
  | some s => if s == "" then b else some s

/-- A JS object used as a string map: property values may be `undefined`
(`none`), property keys are case-sensitive, as in `req.headers` and the
header objects of `src/index.js`. -/
def JsMap : Type := List (String × Option String)

instance : DecidableEq JsMap := by
  unfold JsMap
  infer_instance

/-- JS property read `m[k]`: `undefined` (`none`) both for a missing key and
for a key stored with an `undefined` value. -/
def jsGet (m : JsMap) (k : String) : Option String :=
  match m with
  | [] => none
  | (k0, v0) :: rest => if k0 == k then v0 else jsGet rest k

/-- JS property write `m[k] = v` (replaces the first binding of `k`, else
appends). -/
def jsSet (m : JsMap) (k : String) (v : Option String) : JsMap :=
  match m with
  | [] => [(k, v)]
  | (k0, v0) :: rest => if k0 == k then (k0, v) :: rest else (k0, v0) :: jsSet rest k v

/-- ASCII lowercasing of a character (header names are ASCII). -/
def lowerChar (c : Char) : Char :=
  if 'A' ≤ c ∧ c ≤ 'Z' then Char.ofNat (c.toNat + 32) else c

/-- ASCII lowercasing of a string (kernel-reducible). -/
def lowerStr (s : String) : String :=
  ⟨s.toList.map lowerChar⟩

/-- Remove every binding whose key lowercases to a member of `ks`
(the case-insensitive header deletion done by the signing library on
`authorization`, `date` and `x-amz-date` before signing). -/
def removeKeysCI (m : JsMap) (ks : List String) : JsMap :=
  m.filter (fun kv => !(ks.contains (lowerStr kv.1)))

/-- `ENDPOINT = process.env.ENDPOINT || argv._[0]` (line 71 of
`src/index.js`); line 94 recomputes the same expression for `TARGET`. -/
def endpointChoice (envENDPOINT positional : Option String) : Option String :=
  jsOr envENDPOINT positional

/-- Kernel-reducible `startsWith` on strings (character-list prefix test). -/
def strStartsWith (s pre : String) : Bool :=
  pre.toList.isPrefixOf s.toList

/-- `/^https?:\/\//` test of line 95. -/
def hasHttpScheme (s : String) : Bool :=
  strStartsWith s "http://" || strStartsWith s "https://"

/-- Lines 94-97: the upstream target; `https://` is prepended when the
endpoint carries no explicit http(s) scheme. -/
def targetOf (e : String) : String :=
  if hasHttpScheme e then e else "https://" ++ e

/-- Modelled from the WHATWG URL parser used by Node's `new URL` (a platform
library, not repository code), restricted to the http(s) shapes this program
deals in: a string without an explicit `http://` or `https://` scheme fails to
parse (`new URL` throws `Invalid URL`, since such endpoint strings contain no
`:` scheme separator), and for an http(s) URL the hostname is the authority
read up to the first `/`, `?`, `#` or `:` (port), which must be nonempty. -/
def urlHostname (s : String) : Option String :=
  if strStartsWith s "http://" then
    let rest := (s.toList.drop 7).takeWhile (fun c => !(c == '/') && !(c == '?') && !(c == '#') && !(c == ':'))
    if rest.isEmpty then none else some ⟨rest⟩
  else if strStartsWith s "https://" then
    let rest := (s.toList.drop 8).takeWhile (fun c => !(c == '/') && !(c == '?') && !(c == '#') && !(c == ':'))
    if rest.isEmpty then none else some ⟨rest⟩
  else none

/-- The literal char list of `".es.amazonaws.com"`, the fixed part of the
region regex `/\.([^.]+)\.es\.amazonaws\.com\.?(?=.*$)/` of line 81 (the
optional trailing dot and the always-true lookahead constrain nothing). -/
def esSuffix : List Char := ".es.amazonaws.com".toList

/-- One attempt of the region regex at the current position: a literal `.`,
a nonempty dot-free capture group, then the literal `.es.amazonaws.com`. -/
def regionMatchAt (l : List Char) : Option (List Char) :=
  match l with
  | [] => none
  | c :: rest =>
    if c = '.' then
      let label := rest.takeWhile (fun x => !(x == '.'))
      if !label.isEmpty && esSuffix.isPrefixOf (rest.dropWhile (fun x => !(x == '.'))) then
        some label
      else none
    else none

/-- `String.match` semantics of line 81: the regex engine scans start
positions left to right and returns the first (leftmost) match's capture. -/
def regionScan : List Char → Option (List Char)
  | [] => none
  | c :: rest =>
    match regionMatchAt (c :: rest) with
    | some r => some r
    | none => regionScan rest

/-- Outcome of startup region resolution (lines 79-92): either a region
string, or `process.exit(1)` after printing usage. -/
inductive RegionOutcome where
  | ok (r : String)
  | usageExit
deriving DecidableEq

/-- Lines 79-92: use `argv.r` when truthy, else infer the region from the
endpoint via the regex, else print usage and exit with status 1. -/
def resolveRegion (argvR : Option String) (endpoint : String) : RegionOutcome :=
  if jsTruthy argvR then RegionOutcome.ok (argvR.getD "")
  else
    match regionScan endpoint.toList with
    | some cs => RegionOutcome.ok ⟨cs⟩
    | none => RegionOutcome.usageExit

/-- yargs resolution of `-r` (line 36-41): an explicit flag wins, otherwise
the declared default `process.env.REGION`. -/
def argvRegion (cliR envREGION : Option String) : Option String :=
  match cliR with
  | some v => some v
  | none => envREGION

/-- yargs resolution of `-u` (lines 42-46): an explicit flag wins, otherwise
the declared default `process.env.AUTH_USER || process.env.USER`. -/
def argvUser (cliU envAUTH_USER envUSER : Option String) : Option String :=
  match cliU with
  | some v => some v
  | none => jsOr envAUTH_USER envUSER

/-- yargs resolution of `-a` (lines 47-51): an explicit flag wins, otherwise
the declared default `process.env.AUTH_PASSWORD || process.env.PASSWORD`. -/
def argvPassword (cliA envAUTH_PASSWORD envPASSWORD : Option String) : Option String :=
  match cliA with
  | some v => some v
  | none => jsOr envAUTH_PASSWORD envPASSWORD

/-- The process-lifetime configuration the request pipeline reads:
`ENDPOINT`, `argv.H`, the resolved `argv.u`/`argv.a`, the raw environment
variables consulted by the basic-auth block (lines 195-200), and the parsed
byte value of the body-size limit `argv.l`. -/
structure AppConfig where
  endpoint : String
  healthPath : Option String
  argvU : Option String
  argvA : Option String
  envUSER : Option String
  envAUTH_USER : Option String
  envPASSWORD : Option String
  envAUTH_PASSWORD : Option String
  limit : Nat

/-- An inbound HTTP request as the pipeline sees it: Node lowercases incoming
header names, so `headers` keys are lowercase; `auth` is the Basic-Auth
user/password pair presented in the `Authorization` header, if any; `body` is
the raw byte buffer captured by `bodyParser.raw`, or `none` when the request
carries no body (in which case `req.body` is the non-Buffer `{}`). -/
structure Req where
  method : String
  url : String
  headers : JsMap
  auth : Option (String × String)
  body : Option (List Nat)

/-- A response produced by the proxy process itself (not relayed from
upstream): status, the body when the source writes a literal one (framework
generated bodies are modelled as `""`), and whether a `WWW-Authenticate`
challenge accompanies it. -/
structure Resp where
  status : Nat
  body : String
  challenge : Bool
deriving DecidableEq

/-- The canonical request object built for `signer.sign` (lines 225-233). -/
structure SignReq where
  method : String
  path : String
  headers : JsMap
  body : List Nat
deriving DecidableEq

/-- Per-process external effects the pipeline consults, kept as parameters of
the embedding: the SHA-256 hex digest function of Node's `crypto` module, the
success of `await credentials()` in the `getCredentials` middleware, and the
signing library's date stamp, authorization-value computation and optional
session token (all platform libraries, not repository code). -/
structure Ext where
  hash : List Nat → String
  credsOk : Bool
  dateStamp : String
  authFn : SignReq → String
  secToken : Option String

/-- What `proxy.web(req, res, { buffer })` is given (lines 266-271): the fixed
upstream target of the proxy options (line 169), the mutated `req.headers`,
and the explicitly buffered body bytes in `bufferStream`. -/
structure Fwd where
  target : String
  headers : JsMap
  body : List Nat
deriving DecidableEq

/-- Observable actions of one request's trip through the pipeline. -/
inductive Ev where
  /-- `await credentials()` ran in the `getCredentials` middleware. -/
  | credResolve
  /-- `signer.sign` was invoked on this canonical request. -/
  | sign (r : SignReq)
  /-- `proxy.web` relayed the request upstream. -/
  | upstream (f : Fwd)
deriving DecidableEq

/-- How the request was answered: by the proxy process directly, or by
relaying the upstream response. -/
inductive Outcome where
  | direct (r : Resp)
  | proxied
deriving DecidableEq

/-- 413 from `bodyParser.raw` when the body exceeds `limit`. -/
def payloadTooLargeResp : Resp := ⟨413, "", false⟩

/-- Express's default error handler (credential failure passed to `next`, or
an error thrown inside the basic-auth authorizer). -/
def serverErrorResp : Resp := ⟨500, "", false⟩

/-- Line 275: `res.status(500).send("Internal Server Error")`. -/
def signErrorResp : Resp := ⟨500, "Internal Server Error", false⟩

/-- Lines 189-192: the health route, `res.send("ok")` as `text/plain`. -/
def healthResp : Resp := ⟨200, "ok", false⟩

/-- express-basic-auth with `challenge: true`: a 401 with a
`WWW-Authenticate` challenge and an empty body. -/
def challengeResp : Resp := ⟨401, "", true⟩

/-- The request pathname: `req.url` up to a query or fragment (Express route
matching works on the pathname). -/
def pathnameOf (url : String) : String :=
  ⟨url.toList.takeWhile (fun c => !(c == '?') && !(c == '#'))⟩

/-- Whether the Express health route (registered only when `argv.H` is
truthy, line 188) matches: `app.get` answers GET (and HEAD) requests whose
pathname matches the configured literal path under Express's default
routing options (`caseSensitive: false`, `strict: false`), i.e.
case-insensitively and with one optional trailing slash. -/
def healthMatch (cfg : AppConfig) (req : Req) : Bool :=
  jsTruthy cfg.healthPath
    && (req.method == "GET" || req.method == "HEAD")
    && (lowerStr (pathnameOf req.url) == lowerStr (cfg.healthPath.getD "")
        || lowerStr (pathnameOf req.url) == lowerStr (cfg.healthPath.getD "") ++ "/")

/-- `bodyParser.raw({ limit })` (lines 178-185): a present body larger than
the limit is rejected; a bodyless request passes through. -/
def bodyWithinLimit (cfg : AppConfig) (req : Req) : Bool :=
  match req.body with
  | some b => b.length ≤ cfg.limit
  | none => true

/-- Line 195: the basic-auth gate is installed only when `argv.u && argv.a`
is truthy. -/
def basicConfigured (cfg : AppConfig) : Bool :=
  jsTruthy cfg.argvU && jsTruthy cfg.argvA

/-- Line 197: `var user = process.env.USER || process.env.AUTH_USER` —
the flag value `argv.u` is not consulted here. -/
def registeredUser (cfg : AppConfig) : Option String :=
  jsOr cfg.envUSER cfg.envAUTH_USER

/-- Line 198: `var pass = process.env.PASSWORD || process.env.AUTH_PASSWORD`. -/
def registeredPass (cfg : AppConfig) : Option String :=
  jsOr cfg.envPASSWORD cfg.envAUTH_PASSWORD

/-- JS `String(x)` coercion used implicitly by `users[user] = pass` when
`user` is `undefined`: the object key becomes the string `"undefined"`. -/
def jsStr (o : Option String) : String :=
  o.getD "undefined"

/-- The express-basic-auth static-users check against the single registered
pair (library behaviour at its documented contract): no `Authorization`
header is unauthorized; otherwise the presented name is compared with the
registered key and the presented password with the stored one.  When the
stored password is JS `undefined` (`registeredPass` empty) the comparison
throws (`none` here), which Express converts to a 500. -/
def basicAuthCheck (cfg : AppConfig) (req : Req) : Option Bool :=
  match req.auth with
  | none => some false
  | some (u, p) =>
    match registeredPass cfg with
    | none => none
    | some rp => some ((u == jsStr (registeredUser cfg)) && (p == rp))

/-- The header names of lines 237-243 whose inbound values are copied into
the canonical request. -/
def headersToInclude : List String :=
  ["accept", "accept-encoding", "accept-language", "content-type", "upgrade-insecure-requests"]

/-- Lines 245-250: add each whitelisted header present on the inbound
request (`req.get` is a case-insensitive read; inbound keys are lowercase). -/
def addWhitelisted (req : Req) (m : JsMap) (name : String) : JsMap :=
  match jsGet req.headers (lowerStr name) with
  | some v => jsSet m name (some v)
  | none => m

/-- Lines 225-250: the canonical request handed to `signer.sign`, with
`Host`, the freshly computed `x-amz-content-sha256`, and the whitelisted
pass-through headers. -/
def canonicalOf (ext : Ext) (req : Req) (b : List Nat) (host : String) : SignReq :=
  { method := req.method
    path := req.url
    headers := headersToInclude.foldl (addWhitelisted req)
      [("Host", some host), ("x-amz-content-sha256", some (ext.hash b))]
    body := b }

/-- Modelled from the spec (the SigV4 signing library of §4.3, not
repository code): `sign` returns a fresh header set that keeps the given
headers (after deleting any `authorization`/`date`/`x-amz-date`,
case-insensitively), and adds the lowercase `x-amz-date` stamp, the
`x-amz-security-token` when the credential set carries a session token, and
the computed `authorization` value. -/
def signLib (ext : Ext) (r : SignReq) : JsMap :=
  let h0 := removeKeysCI r.headers ["authorization", "date", "x-amz-date"]
  let h1 := jsSet h0 "x-amz-date" (some ext.dateStamp)
  let h2 :=
    match ext.secToken with
    | some t => jsSet h1 "x-amz-security-token" (some t)
    | none => h1
  jsSet h2 "authorization" (some (ext.authFn r))

/-- Lines 256-264: the signed headers copied back onto `req.headers` before
proxying.  The source reads `signedRequest.headers.host` in lowercase while
the canonical request stored the key as `Host`, so that read yields JS
`undefined`, faithfully reproduced by the case-sensitive `jsGet`. -/
def forwardedHeaders (ext : Ext) (req : Req) (b : List Nat) (host : String) : JsMap :=
  let signed := signLib ext (canonicalOf ext req b host)
  let h1 := jsSet req.headers "host" (jsGet signed "host")
  let h2 := jsSet h1 "x-amz-date" (jsGet signed "x-amz-date")
  let h3 := jsSet h2 "authorization" (jsGet signed "authorization")
  let h4 := jsSet h3 "x-amz-content-sha256" (jsGet signed "x-amz-content-sha256")
  if jsTruthy (jsGet signed "x-amz-security-token") then
    jsSet h4 "x-amz-security-token" (jsGet signed "x-amz-security-token")
  else h4

/-- The upstream call made by `proxy.web` for a buffered body: the fixed
target from the proxy options, the mutated headers, and exactly the buffered
bytes (the `bufferStream` of lines 266-270). -/
def forwardedOf (ext : Ext) (cfg : AppConfig) (req : Req) (b : List Nat) (host : String) : Fwd :=
  ⟨targetOf cfg.endpoint, forwardedHeaders ext req b host, b⟩

/-- The final middleware (lines 210-278): parse `new URL(ENDPOINT)` (throws
for an endpoint without an http(s) scheme — caught as a 500), require the
buffered body to be a `Buffer` (`Buffer.from({})` throws for the bodyless
placeholder — caught as a 500), hash, sign, copy the signed headers and
relay upstream with the buffered bytes. -/
def signAndForward (cfg : AppConfig) (ext : Ext) (req : Req) : List Ev × Outcome :=
  match urlHostname cfg.endpoint with
  | none => ([Ev.credResolve], Outcome.direct signErrorResp)
  | some host =>
    match req.body with
    | none => ([Ev.credResolve], Outcome.direct signErrorResp)
    | some b =>
      ([Ev.credResolve, Ev.sign (canonicalOf ext req b host),
        Ev.upstream (forwardedOf ext cfg req b host)], Outcome.proxied)

/-- The pipeline stages after the raw body parser, in registration order
(lines 186-278): the `getCredentials` middleware, the optional health route,
the optional basic-auth gate, then the signing and forwarding handler. -/
def afterParse (cfg : AppConfig) (ext : Ext) (req : Req) : List Ev × Outcome :=
  if ext.credsOk then
    if healthMatch cfg req then ([Ev.credResolve], Outcome.direct healthResp)
    else if basicConfigured cfg then
      match basicAuthCheck cfg req with
      | some true => signAndForward cfg ext req
      | some false => ([Ev.credResolve], Outcome.direct challengeResp)
      | none => ([Ev.credResolve], Outcome.direct serverErrorResp)
    else signAndForward cfg ext req
  else ([Ev.credResolve], Outcome.direct serverErrorResp)

/-- One request's trip through the Express stack of `src/index.js` (the
compression middleware only shapes the response encoding and is modelled as
the identity): raw body capture with the size limit first (lines 178-185),
then the stages of `afterParse`. -/
def handleRequest (cfg : AppConfig) (ext : Ext) (req : Req) : List Ev × Outcome :=
  if bodyWithinLimit cfg req then afterParse cfg ext req
  else ([], Outcome.direct payloadTooLargeResp)

/-- A response relayed from upstream: status, headers and raw body bytes. -/
structure UpResp where
  status : Nat
  headers : List (String × String)
  bodyBytes : List Nat
deriving DecidableEq

/-- Kernel-reducible substring test: does `pat` occur contiguously in `l`? -/
def subOccurs (pat : List Char) : List Char → Bool
  | [] => pat.isEmpty
  | c :: rest => pat.isPrefixOf (c :: rest) || subOccurs pat rest

/-- The regex `/\.(css|js|img|font)/` of line 281: an unanchored search, so
it succeeds whenever one of the four dotted tokens occurs anywhere in
`req.url`. -/
def staticAssetMatch (url : String) : Bool :=
  subOccurs ".css".toList url.toList || subOccurs ".js".toList url.toList
    || subOccurs ".img".toList url.toList || subOccurs ".font".toList url.toList

/-- Node's `res.setHeader`: case-insensitive replacement of an existing
header, else append. -/
def setRespHeader (hs : List (String × String)) (k v : String) : List (String × String) :=
  match hs with
  | [] => [(k, v)]
  | (k0, v0) :: rest =>
    if lowerStr k0 == lowerStr k then (k, v) :: rest else (k0, v0) :: setRespHeader rest k v

/-- Case-insensitive response-header read. -/
def getRespHeader (hs : List (String × String)) (k : String) : Option String :=
  match hs with
  | [] => none
  | (k0, v0) :: rest => if lowerStr k0 == lowerStr k then some v0 else getRespHeader rest k

/-- The `proxyRes` hook (lines 280-284) composed with http-proxy's verbatim
relay (library contract): the upstream status, body and headers pass through
unchanged except that a 24-hour public cache-control header is set when
`req.url` matches the static-asset regex. -/
def applyProxyRes (url : String) (r : UpResp) : UpResp :=
  if staticAssetMatch url then
    { r with headers := setRespHeader r.headers "Cache-Control" "public, max-age=86400" }
  else r

/-- A resolved AWS credential set. -/
structure Creds where
  accessKeyId : String
  secretAccessKey : String
  sessionToken : Option String
deriving DecidableEq

/-- The constructor argument object handed to `fromNodeProviderChain`:
`{ profile: PROFILE }` or no argument. -/
structure ProviderArgs where
  profile : Option String
deriving DecidableEq

/-- Line 113: the provider construction of the first (SSO) attempt,
`fromNodeProviderChain({ profile: PROFILE })`. -/
def ssoAttemptArgs (p : String) : ProviderArgs := ⟨some p⟩

/-- Line 120: the provider construction of the fallback branch after the SSO
attempt failed, again `fromNodeProviderChain({ profile: PROFILE })`. -/
def fallbackAttemptArgs (p : String) : ProviderArgs := ⟨some p⟩

/-- Line 125: the no-profile construction, `fromNodeProviderChain()`. -/
def defaultChainArgs : ProviderArgs := ⟨none⟩

/-- The credential-selection logic of `initializeCredentials`
(lines 108-128), with the provider-chain resolution of the AWS SDK kept as
the function parameter `resolve`: with a profile, try the SSO-attempt
construction, and on failure fall back to the regular-profile construction;
with no profile, use the default chain. -/
def initializeCredentialsResolve (resolve : ProviderArgs → Except String Creds)
    (profile : Option String) : Except String Creds :=
  match profile with
  | some p =>
    match resolve (ssoAttemptArgs p) with
    | Except.ok c => Except.ok c
    | Except.error _ => resolve (fallbackAttemptArgs p)
  | none => resolve defaultChainArgs

/-- The condition asserted by the spec's region scenario: the endpoint's
hostname ends in `.<region>.es.amazonaws.com` with a nonempty dot-free
region label (a formalization of the claim's wording, for comparison with
the code's unanchored regex). -/
def claimEndsPattern (s : String) : Bool :=
  let l := s.toList
  esSuffix.isSuffixOf l &&
    (let pre := l.take (l.length - esSuffix.length)
     let rev := pre.reverse
     let lab := rev.takeWhile (fun c => !(c == '.'))
     !lab.isEmpty &&
       (match rev.drop lab.length with
        | c :: _ => c == '.'
        | [] => false))

/-- The condition asserted by the spec for the cache-control header: the
request path ends with one of the four static-asset suffixes (a
formalization of the claim's wording, for comparison with the code's
unanchored regex). -/
def claimStaticSuffix (url : String) : Bool :=
  ".css".toList.isSuffixOf url.toList || ".js".toList.isSuffixOf url.toList
    || ".img".toList.isSuffixOf url.toList || ".font".toList.isSuffixOf url.toList

/-! Concrete fixtures used to evaluate the pipeline at specific inputs. -/

/-- A concrete external-effect record: a length-based stand-in digest
function (any digest function works, the claims are about how its output is
wired through the pipeline), succeeding credentials, no session token. -/
def wExt : Ext :=
  { hash := fun b => toString b.length
    credsOk := true
    dateStamp := "20251011T000000Z"
    authFn := fun _ => "sig"
    secToken := none }

/-- A configuration with a health path and no basic auth. -/
def wCfgHealth : AppConfig :=
  { endpoint := "https://search.us-west-2.es.amazonaws.com"
    healthPath := some "/health"
    argvU := none, argvA := none
    envUSER := none, envAUTH_USER := none, envPASSWORD := none, envAUTH_PASSWORD := none
    limit := 16 }

/-- A GET of the configured health path, with no body. -/
def wReqHealth : Req :=
  { method := "GET", url := "/health", headers := [], auth := none, body := none }

/-- The main well-formed configuration: endpoint given with a scheme, body
limit of 3 bytes, no health path, no basic auth. -/
def wCfgMain : AppConfig :=
  { endpoint := "https://search.us-west-2.es.amazonaws.com"
    healthPath := none
    argvU := none, argvA := none
    envUSER := none, envAUTH_USER := none, envPASSWORD := none, envAUTH_PASSWORD := none
    limit := 3 }

/-- A POST with a 3-byte body (exactly at `wCfgMain`'s limit). -/
def wReqPost : Req :=
  { method := "POST", url := "/idx/_search"
    headers := [("accept", some "*/*"), ("content-type", some "application/json")]
    auth := none, body := some [1, 2, 3] }

/-- A POST with a 4-byte body (one byte over `wCfgMain`'s limit). -/
def wReqPost4 : Req :=
  { method := "POST", url := "/idx/_search", headers := [], auth := none
    body := some [1, 2, 3, 4] }

/-- `wCfgMain` with the endpoint exactly as the README's usage example
supplies it: a bare hostname without a scheme. -/
def wCfgSchemeless : AppConfig :=
  { wCfgMain with endpoint := "search-prod.us-west-2.es.amazonaws.com" }

/-- Basic-auth configured (`-u u1 -a p1` resolved into `argv`), with the
ambient `USER`/`PASSWORD` environment variables the registration code
actually reads; body limit of 4 bytes. -/
def wCfgAuth : AppConfig :=
  { endpoint := "https://search.us-west-2.es.amazonaws.com"
    healthPath := none
    argvU := some "u1", argvA := some "p1"
    envUSER := some "alice", envAUTH_USER := none
    envPASSWORD := some "pw", envAUTH_PASSWORD := none
    limit := 4 }

/-- A credential-less POST whose 5-byte body exceeds `wCfgAuth`'s limit. -/
def wReqOversize : Req :=
  { method := "POST", url := "/idx/_doc", headers := [], auth := none
    body := some [1, 2, 3, 4, 5] }

/-- A credential-less POST within `wCfgAuth`'s limit. -/
def wReqNoAuth : Req :=
  { method := "POST", url := "/idx/_doc", headers := [], auth := none
    body := some [1, 2] }

/-- The C5 configuration: `-u myuser -a mypass` on the command line
(resolved into `argv.u`/`argv.a`), while the environment carries
`USER=alice` and `PASSWORD=pw2`. -/
def wCfgFlags : AppConfig :=
  { endpoint := "https://search.us-west-2.es.amazonaws.com"
    healthPath := none
    argvU := some "myuser", argvA := some "mypass"
    envUSER := some "alice", envAUTH_USER := none
    envPASSWORD := some "pw2", envAUTH_PASSWORD := none
    limit := 16 }

/-- A request presenting exactly the flag-supplied pair. -/
def wReqFlagPair : Req :=
  { method := "GET", url := "/idx", headers := [], auth := some ("myuser", "mypass")
    body := some [7] }

/-- A request presenting the environment-derived pair. -/
def wReqEnvPair : Req :=
  { method := "GET", url := "/idx", headers := [], auth := some ("alice", "pw2")
    body := some [7] }

/-- An upstream JSON response carrying no cache-control header. -/
def wUpResp : UpResp :=
  { status := 200, headers := [("content-type", "application/json")], bodyBytes := [123, 125] }

theorem jsGet_cons (k0 : String) (v0 : Option String) (rest : JsMap) (k : String) :
    jsGet ((k0, v0) :: rest) k = if k0 == k then v0 else jsGet rest k := rfl

theorem jsSet_cons (k0 : String) (v0 : Option String) (rest : JsMap) (k : String) (v : Option String) :
    jsSet ((k0, v0) :: rest) k v
      = if k0 == k then (k0, v) :: rest else (k0, v0) :: jsSet rest k v := rfl

theorem jsGet_jsSet_self (m : JsMap) (k : String) (v : Option String) :
    jsGet (jsSet m k v) k = v := by
  induction m with
  | nil => simp [jsSet, jsGet]
  | cons kv rest ih =>
    obtain ⟨k0, v0⟩ := kv
    cases h : (k0 == k) with
    | true => simp [jsSet_cons, jsGet_cons, h]
    | false => simp [jsSet_cons, jsGet_cons, h, ih]

theorem jsGet_jsSet_ne (m : JsMap) (k1 k2 : String) (v : Option String) (h : k1 ≠ k2) :
    jsGet (jsSet m k1 v) k2 = jsGet m k2 := by
  induction m with
  | nil => simp [jsSet, jsGet, h]
  | cons kv rest ih =>
    obtain ⟨k0, v0⟩ := kv
    cases h0 : (k0 == k1) with
    | true =>
      have hk : k0 = k1 := by simpa using h0
      subst hk
      simp [jsSet_cons, jsGet_cons, h]
    | false =>
      simp only [jsSet_cons, h0, Bool.false_eq_true, if_false, jsGet_cons]
      cases h2 : (k0 == k2) with
      | true => simp
      | false => simp [ih]

theorem jsGet_removeKeysCI (m : JsMap) (ks : List String) (k : String)
    (h : ks.contains (lowerStr k) = false) :
    jsGet (removeKeysCI m ks) k = jsGet m k := by
  induction m with
  | nil => rfl
  | cons kv rest ih =>
    obtain ⟨k0, v0⟩ := kv
    cases h0 : (k0 == k) with
    | true =>
      have hk : k0 = k := by simpa using h0
      subst hk
      simp only [removeKeysCI] at ih ⊢
      rw [List.filter_cons]
      have hp : (!ks.contains (lowerStr (k0, v0).1)) = true := by
        show (!ks.contains (lowerStr k0)) = true
        rw [h]
        rfl
      rw [if_pos hp]
      simp [jsGet_cons, h0]
    | false =>
      cases h1 : ks.contains (lowerStr k0) with
      | true =>
        simp only [removeKeysCI] at ih ⊢
        rw [List.filter_cons]
        have hp : ¬((!ks.contains (lowerStr (k0, v0).1)) = true) := by
          show ¬((!ks.contains (lowerStr k0)) = true)
          rw [h1]
          simp
        rw [if_neg hp, ih, jsGet_cons, if_neg (by simp [h0])]
      | false =>
        simp only [removeKeysCI] at ih ⊢
        rw [List.filter_cons]
        have hp : (!ks.contains (lowerStr (k0, v0).1)) = true := by
          show (!ks.contains (lowerStr k0)) = true
          rw [h1]
          rfl
        rw [if_pos hp, jsGet_cons, jsGet_cons, if_neg (by simp [h0]), if_neg (by simp [h0])]
        exact ih

theorem jsGet_foldl_addWhitelisted (req : Req) (names : List String) (m : JsMap) (k : String)
    (h : k ∉ names) :
    jsGet (names.foldl (addWhitelisted req) m) k = jsGet m k := by
  induction names generalizing m with
  | nil => rfl
  | cons n rest ih =>
    have hk : k ∉ rest := fun hh => h (List.mem_cons_of_mem _ hh)
    have hnk : n ≠ k := fun hh => h (hh ▸ List.mem_cons_self _ _)
    simp only [List.foldl_cons]
    rw [ih _ hk]
    unfold addWhitelisted
    cases jsGet req.headers (lowerStr n) with
    | none => rfl
    | some v => exact jsGet_jsSet_ne _ _ _ _ hnk

theorem canonical_contentSha (ext : Ext) (req : Req) (b : List Nat) (host : String) :
    jsGet (canonicalOf ext req b host).headers "x-amz-content-sha256" = some (ext.hash b) := by
  unfold canonicalOf
  rw [jsGet_foldl_addWhitelisted _ _ _ _ (by decide)]
  rfl

theorem canonical_Host (ext : Ext) (req : Req) (b : List Nat) (host : String) :
    jsGet (canonicalOf ext req b host).headers "Host" = some host := by
  unfold canonicalOf
  rw [jsGet_foldl_addWhitelisted _ _ _ _ (by decide)]
  rfl

theorem signLib_contentSha (ext : Ext) (r : SignReq) :
    jsGet (signLib ext r) "x-amz-content-sha256" = jsGet r.headers "x-amz-content-sha256" := by
  cases ht : ext.secToken with
  | none =>
    simp only [signLib, ht]
    rw [jsGet_jsSet_ne _ _ _ _ (by decide), jsGet_jsSet_ne _ _ _ _ (by decide),
      jsGet_removeKeysCI _ _ _ (by decide)]
  | some t =>
    simp only [signLib, ht]
    rw [jsGet_jsSet_ne _ _ _ _ (by decide), jsGet_jsSet_ne _ _ _ _ (by decide),
      jsGet_jsSet_ne _ _ _ _ (by decide), jsGet_removeKeysCI _ _ _ (by decide)]

theorem forwardedHeaders_contentSha (ext : Ext) (req : Req) (b : List Nat) (host : String) :
    jsGet (forwardedHeaders ext req b host) "x-amz-content-sha256" = some (ext.hash b) := by
  have hsha : jsGet (signLib ext (canonicalOf ext req b host)) "x-amz-content-sha256"
      = some (ext.hash b) := by
    rw [signLib_contentSha, canonical_contentSha]
  simp only [forwardedHeaders]
  cases htok : jsTruthy (jsGet (signLib ext (canonicalOf ext req b host)) "x-amz-security-token") with
  | true =>
    rw [if_pos rfl, jsGet_jsSet_ne _ _ _ _ (by decide), jsGet_jsSet_self, hsha]
  | false =>
    rw [if_neg (by simp), jsGet_jsSet_self, hsha]

theorem signAndForward_shape (cfg : AppConfig) (ext : Ext) (req : Req) :
    signAndForward cfg ext req = ([Ev.credResolve], Outcome.direct signErrorResp) ∨
    ∃ host b, urlHostname cfg.endpoint = some host ∧ req.body = some b ∧
      signAndForward cfg ext req =
        ([Ev.credResolve, Ev.sign (canonicalOf ext req b host),
          Ev.upstream (forwardedOf ext cfg req b host)], Outcome.proxied) := by
  cases h1 : urlHostname cfg.endpoint with
  | none =>
    left
    simp [signAndForward, h1]
  | some host =>
    cases h2 : req.body with
    | none =>
      left
      simp [signAndForward, h1, h2]
    | some b =>
      right
      exact ⟨host, b, rfl, rfl, by simp [signAndForward, h1, h2]⟩

theorem handleRequest_shape (cfg : AppConfig) (ext : Ext) (req : Req) :
    handleRequest cfg ext req = ([], Outcome.direct payloadTooLargeResp) ∨
    (∃ resp, handleRequest cfg ext req = ([Ev.credResolve], Outcome.direct resp)) ∨
    ∃ host b, urlHostname cfg.endpoint = some host ∧ req.body = some b ∧
      handleRequest cfg ext req =
        ([Ev.credResolve, Ev.sign (canonicalOf ext req b host),
          Ev.upstream (forwardedOf ext cfg req b host)], Outcome.proxied) := by
  have hsf : signAndForward cfg ext req = ([Ev.credResolve], Outcome.direct signErrorResp) ∨
      ∃ host b, urlHostname cfg.endpoint = some host ∧ req.body = some b ∧
        signAndForward cfg ext req =
          ([Ev.credResolve, Ev.sign (canonicalOf ext req b host),
            Ev.upstream (forwardedOf ext cfg req b host)], Outcome.proxied) :=
    signAndForward_shape cfg ext req
  cases hb : bodyWithinLimit cfg req with
  | false =>
    left
    simp [handleRequest, hb]
  | true =>
    right
    have hmain : handleRequest cfg ext req = afterParse cfg ext req := by
      simp [handleRequest, hb]
    rw [hmain]
    cases hc : ext.credsOk with
    | false =>
      left
      exact ⟨serverErrorResp, by simp [afterParse, hc]⟩
    | true =>
      cases hh : healthMatch cfg req with
      | true =>
        left
        exact ⟨healthResp, by simp [afterParse, hc, hh]⟩
      | false =>
        cases hbc : basicConfigured cfg with
        | false =>
          have hap : afterParse cfg ext req = signAndForward cfg ext req := by
            simp [afterParse, hc, hh, hbc]
          rw [hap]
          rcases hsf with h | ⟨host, b, h1, h2, h3⟩
          · exact Or.inl ⟨signErrorResp, h⟩
          · exact Or.inr ⟨host, b, h1, h2, h3⟩
        | true =>
          cases hchk : basicAuthCheck cfg req with
          | none =>
            left
            exact ⟨serverErrorResp, by simp [afterParse, hc, hh, hbc, hchk]⟩
          | some ok =>
            cases ok with
            | false =>
              left
              exact ⟨challengeResp, by simp [afterParse, hc, hh, hbc, hchk]⟩
            | true =>
              have hap : afterParse cfg ext req = signAndForward cfg ext req := by
                simp [afterParse, hc, hh, hbc, hchk]
              rw [hap]
              rcases hsf with h | ⟨host, b, h1, h2, h3⟩
              · exact Or.inl ⟨signErrorResp, h⟩
              · exact Or.inr ⟨host, b, h1, h2, h3⟩

theorem afterParse_not_payloadTooLarge (cfg : AppConfig) (ext : Ext) (req : Req) :
    (afterParse cfg ext req).2 ≠ Outcome.direct payloadTooLargeResp := by
  have hsf : (signAndForward cfg ext req).2 ≠ Outcome.direct payloadTooLargeResp := by
    rcases signAndForward_shape cfg ext req with h | ⟨host, b, _, _, h⟩ <;> rw [h] <;>
      simp [signErrorResp, payloadTooLargeResp]
  cases hc : ext.credsOk with
  | false =>
    simp only [afterParse, hc, Bool.false_eq_true, if_false]
    decide
  | true =>
    cases hh : healthMatch cfg req with
    | true =>
      simp only [afterParse, hc, hh, if_true]
      decide
    | false =>
      cases hbc : basicConfigured cfg with
      | false =>
        simpa only [afterParse, hc, hh, hbc, Bool.false_eq_true, if_false, if_true] using hsf
      | true =>
        cases hchk : basicAuthCheck cfg req with
        | none =>
          simp only [afterParse, hc, hh, hbc, hchk, Bool.false_eq_true, if_false, if_true]
          decide
        | some ok =>
          cases ok with
          | false =>
            simp only [afterParse, hc, hh, hbc, hchk, Bool.false_eq_true, if_false, if_true]
            decide
          | true =>
            simpa only [afterParse, hc, hh, hbc, hchk, Bool.false_eq_true, if_false,
              if_true] using hsf

theorem takeWhile_dropWhile_split (p : Char → Bool) (a : List Char) (c0 : Char) (b : List Char)
    (ha : ∀ c ∈ a, p c = true) (hc : p c0 = false) :
    (a ++ c0 :: b).takeWhile p = a ∧ (a ++ c0 :: b).dropWhile p = c0 :: b := by
  induction a with
  | nil =>
    constructor
    · rw [List.nil_append, List.takeWhile_cons_of_neg (by simp [hc])]
    · rw [List.nil_append, List.dropWhile_cons_of_neg (by simp [hc])]
  | cons x xs ih =>
    have hx : p x = true := ha x (List.mem_cons_self _ _)
    have hxs : ∀ c ∈ xs, p c = true := fun c hcm => ha c (List.mem_cons_of_mem _ hcm)
    obtain ⟨iht, ihd⟩ := ih hxs
    constructor
    · rw [List.cons_append, List.takeWhile_cons_of_pos hx, iht]
    · rw [List.cons_append, List.dropWhile_cons_of_pos hx, ihd]

theorem esSuffix_eq : esSuffix = '.' :: "es.amazonaws.com".toList := by decide

theorem regionMatchAt_some {l r : List Char} (h : regionMatchAt l = some r) :
    ∃ suf, l = '.' :: (r ++ esSuffix ++ suf) ∧ r ≠ [] ∧ ∀ c ∈ r, c ≠ '.' := by
  cases l with
  | nil => exact absurd h (by simp [regionMatchAt])
  | cons c rest =>
    simp only [regionMatchAt] at h
    by_cases hc : c = '.'
    case neg =>
      rw [if_neg hc] at h
      cases h
    subst hc
    rw [if_pos rfl] at h
    set p : Char → Bool := fun x => !(x == '.') with hp
    by_cases hcnd : (!(rest.takeWhile p).isEmpty && esSuffix.isPrefixOf (rest.dropWhile p)) = true
    case neg =>
      rw [if_neg hcnd] at h
      cases h
    rw [if_pos hcnd] at h
    injection h with hr
    obtain ⟨hne, hpref⟩ := Bool.and_eq_true_iff.mp hcnd
    have hpre : esSuffix <+: rest.dropWhile p := List.isPrefixOf_iff_prefix.mp hpref
    obtain ⟨suf, hsuf⟩ := hpre
    refine ⟨suf, ?_, ?_, ?_⟩
    · rw [List.append_assoc, hsuf, ← hr, List.takeWhile_append_dropWhile]
    · rw [hr] at hne
      intro hemp
      rw [hemp] at hne
      simp at hne
    · intro c hcm
      rw [← hr] at hcm
      have := List.mem_takeWhile_imp hcm
      simpa [hp] using this

theorem regionMatchAt_cons_dot (rest : List Char) :
    regionMatchAt ('.' :: rest)
      = if (!(rest.takeWhile (fun x => !(x == '.'))).isEmpty
            && esSuffix.isPrefixOf (rest.dropWhile (fun x => !(x == '.')))) = true
        then some (rest.takeWhile (fun x => !(x == '.'))) else none := rfl

theorem regionMatchAt_of_split (r suf : List Char) (hne : r ≠ []) (hdot : ∀ c ∈ r, c ≠ '.') :
    regionMatchAt ('.' :: (r ++ esSuffix ++ suf)) = some r := by
  have hr : ∀ c ∈ r, (fun x => !(x == '.')) c = true := by
    intro c hcm
    simp [hdot c hcm]
  have hshape : r ++ esSuffix ++ suf = r ++ '.' :: ("es.amazonaws.com".toList ++ suf) := by
    rw [esSuffix_eq, List.append_assoc]
    rfl
  have hsplit := takeWhile_dropWhile_split (fun x => !(x == '.')) r '.'
    ("es.amazonaws.com".toList ++ suf) hr (by simp)
  have hpref : esSuffix.isPrefixOf ('.' :: ("es.amazonaws.com".toList ++ suf)) = true := by
    rw [List.isPrefixOf_iff_prefix, esSuffix_eq]
    exact ⟨suf, rfl⟩
  have hcond : (!r.isEmpty && esSuffix.isPrefixOf ('.' :: ("es.amazonaws.com".toList ++ suf)))
      = true := by
    rw [hpref, Bool.and_true]
    cases r with
    | nil => exact absurd rfl hne
    | cons a as => rfl
  rw [regionMatchAt_cons_dot, hshape, hsplit.1, hsplit.2, if_pos hcond]

theorem regionScan_some {l r : List Char} (h : regionScan l = some r) :
    ∃ pre suf, l = pre ++ '.' :: (r ++ esSuffix ++ suf) ∧ r ≠ [] ∧ (∀ c ∈ r, c ≠ '.') ∧
      ∀ (pre2 r2 suf2 : List Char), l = pre2 ++ '.' :: (r2 ++ esSuffix ++ suf2) →
        r2 ≠ [] → (∀ c ∈ r2, c ≠ '.') → pre.length ≤ pre2.length := by
  induction l with
  | nil => exact absurd h (by simp [regionScan])
  | cons c rest ih =>
    unfold regionScan at h
    cases hm : regionMatchAt (c :: rest) with
    | some r0 =>
      rw [hm] at h
      injection h with h0
      subst h0
      obtain ⟨suf, hl, hne, hdot⟩ := regionMatchAt_some hm
      refine ⟨[], suf, by rw [List.nil_append, ← hl], hne, hdot, ?_⟩
      intro pre2 r2 suf2 _ _ _
      simp
    | none =>
      rw [hm] at h
      obtain ⟨pre, suf, hl, hne, hdot, hmin⟩ := ih h
      refine ⟨c :: pre, suf, by rw [List.cons_append, ← hl], hne, hdot, ?_⟩
      intro pre2 r2 suf2 hl2 hne2 hdot2
      cases pre2 with
      | nil =>
        rw [List.nil_append] at hl2
        injection hl2 with hc hrest
        subst hc
        have hat := regionMatchAt_of_split r2 suf2 hne2 hdot2
        rw [← hrest] at hat
        rw [hm] at hat
        cases hat
      | cons c2 pre2tail =>
        rw [List.cons_append] at hl2
        injection hl2 with hc hrest
        have hle := hmin pre2tail r2 suf2 hrest hne2 hdot2
        simpa using Nat.succ_le_succ hle

theorem regionScan_complete (pre : List Char) :
    ∀ (r suf : List Char), r ≠ [] → (∀ c ∈ r, c ≠ '.') →
      (regionScan (pre ++ '.' :: (r ++ esSuffix ++ suf))).isSome = true := by
  induction pre with
  | nil =>
    intro r suf hne hdot
    rw [List.nil_append]
    unfold regionScan
    rw [regionMatchAt_of_split r suf hne hdot]
    rfl
  | cons c pre ih =>
    intro r suf hne hdot
    rw [List.cons_append]
    unfold regionScan
    cases hm : regionMatchAt (c :: (pre ++ '.' :: (r ++ esSuffix ++ suf))) with
    | some r0 => rfl
    | none => exact ih r suf hne hdot

theorem subOccurs_iff (pat l : List Char) :
    subOccurs pat l = true ↔ ∃ pre suf, l = pre ++ pat ++ suf := by
  induction l with
  | nil =>
    constructor
    · intro h
      have hp : pat = [] := by simpa [subOccurs, List.isEmpty_iff] using h
      exact ⟨[], [], by simp [hp]⟩
    · rintro ⟨pre, suf, hl⟩
      obtain ⟨h12, hsuf⟩ := List.append_eq_nil.mp hl.symm
      obtain ⟨hpre, hpat⟩ := List.append_eq_nil.mp h12
      simp [subOccurs, hpat]
  | cons c rest ih =>
    constructor
    · intro h
      simp only [subOccurs] at h
      rw [Bool.or_eq_true] at h
      cases h with
      | inl hpre =>
        obtain ⟨t, ht⟩ := List.isPrefixOf_iff_prefix.mp hpre
        exact ⟨[], t, by rw [List.nil_append, ht]⟩
      | inr hsub =>
        obtain ⟨pre, suf, hl⟩ := ih.mp hsub
        exact ⟨c :: pre, suf, by simp [hl]⟩
    · rintro ⟨pre, suf, hl⟩
      cases pre with
      | nil =>
        simp only [List.nil_append] at hl
        have hpre : pat.isPrefixOf (c :: rest) = true := by
          rw [List.isPrefixOf_iff_prefix]
          exact ⟨suf, hl.symm⟩
        simp [subOccurs, hpre]
      | cons p ps =>
        rw [List.cons_append, List.cons_append] at hl
        injection hl with hc hrest
        have hsub : subOccurs pat rest = true := ih.mpr ⟨ps, suf, hrest⟩
        simp [subOccurs, hsub]

theorem staticAssetMatch_iff (url : String) :
    staticAssetMatch url = true ↔
      (∃ pre suf, url.toList = pre ++ ".css".toList ++ suf) ∨
      (∃ pre suf, url.toList = pre ++ ".js".toList ++ suf) ∨
      (∃ pre suf, url.toList = pre ++ ".img".toList ++ suf) ∨
      (∃ pre suf, url.toList = pre ++ ".font".toList ++ suf) := by
  simp [staticAssetMatch, Bool.or_eq_true, subOccurs_iff, or_assoc]

theorem getRespHeader_setRespHeader_self (hs : List (String × String)) (k v : String) :
    getRespHeader (setRespHeader hs k v) k = some v := by
  induction hs with
  | nil => simp [setRespHeader, getRespHeader]
  | cons kv rest ih =>
    obtain ⟨k0, v0⟩ := kv
    cases h : (lowerStr k0 == lowerStr k) with
    | true => simp [setRespHeader, getRespHeader, h]
    | false => simp [setRespHeader, getRespHeader, h, ih]

theorem getRespHeader_setRespHeader_ne (hs : List (String × String)) (k1 v k2 : String)
    (h : lowerStr k1 ≠ lowerStr k2) :
    getRespHeader (setRespHeader hs k1 v) k2 = getRespHeader hs k2 := by
  induction hs with
  | nil => simp [setRespHeader, getRespHeader, h]
  | cons kv rest ih =>
    obtain ⟨k0, v0⟩ := kv
    cases h0 : (lowerStr k0 == lowerStr k1) with
    | true =>
      have hk : lowerStr k0 = lowerStr k1 := by simpa using h0
      simp [setRespHeader, getRespHeader, h0, hk, h]
    | false => simp [setRespHeader, getRespHeader, h0, ih]

/-- Claim C1: for every inbound request whose body is within the configured
size limit, whenever the pipeline relays a request upstream, the
`x-amz-content-sha256` header on the forwarded request is exactly the digest
of the bytes forwarded upstream, and those bytes are the explicitly buffered
body (`req.body`), not a re-read of the transport stream. -/
theorem content_hash_matches_forwarded_body (cfg : AppConfig) (ext : Ext) (req : Req) (f : Fwd)
    (_hsz : bodyWithinLimit cfg req = true)
    (hmem : Ev.upstream f ∈ (handleRequest cfg ext req).1) :
    jsGet f.headers "x-amz-content-sha256" = some (ext.hash f.body) ∧ req.body = some f.body := by
  rcases handleRequest_shape cfg ext req with h | ⟨resp, h⟩ | ⟨host, b, h1, h2, h3⟩
  · rw [h] at hmem
    simp at hmem
  · rw [h] at hmem
    simp at hmem
  · rw [h3] at hmem
    simp at hmem
    subst hmem
    exact ⟨forwardedHeaders_contentSha ext req b host, h2⟩

/-- Witness for C1 at a concrete run: a 3-byte POST through the well-formed
configuration is forwarded with the content-hash header equal to the digest
of the forwarded bytes, which are the buffered body. -/
theorem content_hash_matches_forwarded_body_witness :
    jsGet (forwardedOf wExt wCfgMain wReqPost [1, 2, 3]
        "search.us-west-2.es.amazonaws.com").headers "x-amz-content-sha256"
      = some (wExt.hash (forwardedOf wExt wCfgMain wReqPost [1, 2, 3]
        "search.us-west-2.es.amazonaws.com").body)
    ∧ wReqPost.body = some (forwardedOf wExt wCfgMain wReqPost [1, 2, 3]
        "search.us-west-2.es.amazonaws.com").body :=
  content_hash_matches_forwarded_body wCfgMain wExt wReqPost
    (forwardedOf wExt wCfgMain wReqPost [1, 2, 3] "search.us-west-2.es.amazonaws.com")
    (by decide) (by decide)

/-- Counterexample to claim C2 as stated: a GET of the configured health path
does return 200 `ok` with no signing and no upstream call, but it does
trigger credential resolution — the `getCredentials` middleware (line 186)
is installed before the health route (line 188), so `await credentials()`
runs for the health request too. -/
theorem health_runs_credential_resolution_counterexample :
    (handleRequest wCfgHealth wExt wReqHealth).2 = Outcome.direct healthResp ∧
    healthResp.status = 200 ∧ healthResp.body = "ok" ∧
    Ev.credResolve ∈ (handleRequest wCfgHealth wExt wReqHealth).1 := by decide

/-- Claim C2, amended: a GET/HEAD of the configured health path whose body is
within the size limit is answered 200 `ok` with no signing and no upstream
call, provided per-request credential resolution succeeds — but credential
resolution itself does run for the health request. -/
theorem health_short_circuit_amended (cfg : AppConfig) (ext : Ext) (req : Req)
    (hc : ext.credsOk = true) (hh : healthMatch cfg req = true)
    (hb : bodyWithinLimit cfg req = true) :
    handleRequest cfg ext req = ([Ev.credResolve], Outcome.direct healthResp) ∧
    (∀ c, Ev.sign c ∉ (handleRequest cfg ext req).1) ∧
    (∀ f, Ev.upstream f ∉ (handleRequest cfg ext req).1) ∧
    Ev.credResolve ∈ (handleRequest cfg ext req).1 := by
  have h : handleRequest cfg ext req = ([Ev.credResolve], Outcome.direct healthResp) := by
    simp [handleRequest, afterParse, hb, hc, hh]
  refine ⟨h, ?_, ?_, ?_⟩ <;> rw [h] <;> simp

/-- Witness for the amended C2 at the concrete health fixture. -/
theorem health_short_circuit_amended_witness :
    handleRequest wCfgHealth wExt wReqHealth = ([Ev.credResolve], Outcome.direct healthResp) ∧
    (∀ c, Ev.sign c ∉ (handleRequest wCfgHealth wExt wReqHealth).1) ∧
    (∀ f, Ev.upstream f ∉ (handleRequest wCfgHealth wExt wReqHealth).1) ∧
    Ev.credResolve ∈ (handleRequest wCfgHealth wExt wReqHealth).1 :=
  health_short_circuit_amended wCfgHealth wExt wReqHealth (by decide) (by decide) (by decide)

/-- Claim C3 at the failing input: for the README's own usage — an endpoint
supplied without a scheme — the upstream target does get `https://`
prepended and its host parses fine, yet the request handler parses the raw
schemeless `ENDPOINT` (line 213), which throws, so every request is answered
500 with no signing and no upstream call, contradicting the claim that the
signing Host comes from the target and that signing fails only on
credential failure or an unparseable target host. -/
theorem schemeless_endpoint_signing_bug :
    targetOf wCfgSchemeless.endpoint = "https://search-prod.us-west-2.es.amazonaws.com" ∧
    urlHostname (targetOf wCfgSchemeless.endpoint)
      = some "search-prod.us-west-2.es.amazonaws.com" ∧
    urlHostname wCfgSchemeless.endpoint = none ∧
    handleRequest wCfgSchemeless wExt wReqPost = ([Ev.credResolve], Outcome.direct signErrorResp) ∧
    signErrorResp.status = 500 := by decide

/-- Counterexample to claim C4 as stated: the region regex of line 81 is not
anchored to the end of the hostname, so an endpoint whose hostname does NOT
end in `.<region>.es.amazonaws.com` still resolves a region (from an interior
occurrence) instead of exiting with usage. -/
theorem region_suffix_counterexample :
    resolveRegion none "a.us-west-2.es.amazonaws.com.evil.com" = RegionOutcome.ok "us-west-2" ∧
    claimEndsPattern "a.us-west-2.es.amazonaws.com.evil.com" = false := by decide

/-- Claim C4, amended: an explicit truthy region flag/env is used verbatim;
otherwise the region is the capture of the leftmost
`.<label>.es.amazonaws.com` occurrence anywhere in the endpoint string
(label nonempty and dot-free): the resolved region decomposes the endpoint
at some occurrence, and no occurrence of the pattern starts strictly earlier
than it (its prefix is of minimal length among all valid decompositions) — a
superset of the claimed ends-with condition; the process exits with usage
exactly when no such occurrence exists. -/
theorem region_resolution_amended :
    (∀ r ep, jsTruthy (some r) = true → resolveRegion (some r) ep = RegionOutcome.ok r) ∧
    (∀ ep r, resolveRegion none ep = RegionOutcome.ok r →
      ∃ pre suf, ep.toList = pre ++ '.' :: (r.toList ++ esSuffix ++ suf) ∧
        r.toList ≠ [] ∧ (∀ c ∈ r.toList, c ≠ '.') ∧
        ∀ (pre2 r2 suf2 : List Char), ep.toList = pre2 ++ '.' :: (r2 ++ esSuffix ++ suf2) →
          r2 ≠ [] → (∀ c ∈ r2, c ≠ '.') → pre.length ≤ pre2.length) ∧
    (∀ (ep : String) (pre r suf : List Char),
      ep.toList = pre ++ '.' :: (r ++ esSuffix ++ suf) → r ≠ [] → (∀ c ∈ r, c ≠ '.') →
      resolveRegion none ep ≠ RegionOutcome.usageExit) := by
  refine ⟨?_, ?_, ?_⟩
  · intro r ep htr
    unfold resolveRegion
    rw [if_pos htr]
    rfl
  · intro ep r h
    unfold resolveRegion at h
    rw [if_neg (by decide)] at h
    cases hscan : regionScan ep.toList with
    | none =>
      rw [hscan] at h
      cases h
    | some cs =>
      rw [hscan] at h
      injection h with h0
      obtain ⟨pre, suf, hl, hne, hdot, hmin⟩ := regionScan_some hscan
      subst h0
      exact ⟨pre, suf, hl, hne, hdot, hmin⟩
  · intro ep pre r suf hl hne hdot heq
    unfold resolveRegion at heq
    rw [if_neg (by decide)] at heq
    have hsome := regionScan_complete pre r suf hne hdot
    rw [← hl] at hsome
    cases hscan : regionScan ep.toList with
    | some cs =>
      rw [hscan] at heq
      cases heq
    | none =>
      rw [hscan] at hsome
      simp at hsome

/-- Witness for the amended C4: an explicit flag wins; the spec's own example
endpoint resolves `us-west-2`, yields the leftmost substring decomposition,
and does not exit with usage. -/
theorem region_resolution_amended_witness :
    resolveRegion (some "eu-central-1") "whatever" = RegionOutcome.ok "eu-central-1" ∧
    (∃ pre suf, "search-prod.us-west-2.es.amazonaws.com".toList
        = pre ++ '.' :: ("us-west-2".toList ++ esSuffix ++ suf) ∧
      "us-west-2".toList ≠ [] ∧ (∀ c ∈ "us-west-2".toList, c ≠ '.') ∧
      ∀ (pre2 r2 suf2 : List Char),
        "search-prod.us-west-2.es.amazonaws.com".toList
          = pre2 ++ '.' :: (r2 ++ esSuffix ++ suf2) →
        r2 ≠ [] → (∀ c ∈ r2, c ≠ '.') → pre.length ≤ pre2.length) ∧
    resolveRegion none "search-prod.us-west-2.es.amazonaws.com" ≠ RegionOutcome.usageExit :=
  ⟨region_resolution_amended.1 "eu-central-1" "whatever" (by decide),
   region_resolution_amended.2.1 "search-prod.us-west-2.es.amazonaws.com" "us-west-2" (by decide),
   region_resolution_amended.2.2 "search-prod.us-west-2.es.amazonaws.com"
     "search-prod".toList "us-west-2".toList [] (by decide) (by decide) (by decide)⟩

/-- Claim C5 at the failing input: with `-u myuser -a mypass` resolved into
`argv` while the environment carries `USER=alice` and `PASSWORD=pw2`, the
basic-auth block (lines 195-200) registers the environment pair, not the
flag pair: the flag-supplied credentials are rejected with a 401 challenge
and the environment pair is the one accepted, contradicting the claim that
the registered pair is the `-u`/`-a` one. -/
theorem basic_auth_env_override_bug :
    argvUser (some "myuser") none (some "alice") = some "myuser" ∧
    argvPassword (some "mypass") none (some "pw2") = some "mypass" ∧
    basicConfigured wCfgFlags = true ∧
    registeredUser wCfgFlags = some "alice" ∧
    registeredPass wCfgFlags = some "pw2" ∧
    handleRequest wCfgFlags wExt wReqFlagPair = ([Ev.credResolve], Outcome.direct challengeResp) ∧
    (handleRequest wCfgFlags wExt wReqEnvPair).2 = Outcome.proxied := by decide

/-- Counterexample to claim C6 as stated: with Basic-Auth configured, a
non-health request carrying no credentials but an oversize body is rejected
413 by the body parser — which runs before the basic-auth gate — so it does
not receive the claimed 401 challenge (no signing occurs, though). -/
theorem basic_auth_oversize_counterexample :
    basicConfigured wCfgAuth = true ∧
    healthMatch wCfgAuth wReqOversize = false ∧
    wReqOversize.auth = none ∧
    handleRequest wCfgAuth wExt wReqOversize = ([], Outcome.direct payloadTooLargeResp) ∧
    payloadTooLargeResp.status = 413 ∧ payloadTooLargeResp.challenge = false := by decide

/-- Claim C6, amended: when Basic-Auth is configured, every non-health
request within the body-size limit, for which per-request credential
resolution succeeds and whose presented Basic-Auth credentials are absent or
mismatching, receives the 401 challenge, and no signing or upstream call
happens for it (the 401 is issued strictly before the signing stage). -/
theorem basic_auth_challenge_amended (cfg : AppConfig) (ext : Ext) (req : Req)
    (hbc : basicConfigured cfg = true)
    (hh : healthMatch cfg req = false)
    (hb : bodyWithinLimit cfg req = true)
    (hc : ext.credsOk = true)
    (hchk : basicAuthCheck cfg req = some false) :
    handleRequest cfg ext req = ([Ev.credResolve], Outcome.direct challengeResp) ∧
    challengeResp.status = 401 ∧ challengeResp.challenge = true ∧
    (∀ c, Ev.sign c ∉ (handleRequest cfg ext req).1) ∧
    (∀ f, Ev.upstream f ∉ (handleRequest cfg ext req).1) := by
  have h : handleRequest cfg ext req = ([Ev.credResolve], Outcome.direct challengeResp) := by
    simp [handleRequest, afterParse, hb, hc, hh, hbc, hchk]
  refine ⟨h, rfl, rfl, ?_, ?_⟩ <;> rw [h] <;> simp

/-- Witness for the amended C6: a credential-less in-limit request under the
basic-auth configuration is answered with the 401 challenge and nothing is
signed or forwarded. -/
theorem basic_auth_challenge_amended_witness :
    handleRequest wCfgAuth wExt wReqNoAuth = ([Ev.credResolve], Outcome.direct challengeResp) ∧
    challengeResp.status = 401 ∧ challengeResp.challenge = true ∧
    (∀ c, Ev.sign c ∉ (handleRequest wCfgAuth wExt wReqNoAuth).1) ∧
    (∀ f, Ev.upstream f ∉ (handleRequest wCfgAuth wExt wReqNoAuth).1) :=
  basic_auth_challenge_amended wCfgAuth wExt wReqNoAuth
    (by decide) (by decide) (by decide) (by decide) (by decide)

/-- Claim C7: a body whose size is exactly the configured limit passes the
raw body parser and proceeds to the rest of the pipeline, while a body one
byte over the limit is answered with the standard 413 payload-too-large
rejection before any signing or upstream call. -/
theorem body_limit_boundary (cfg : AppConfig) (ext : Ext) (req : Req) (b : List Nat)
    (hb : req.body = some b) :
    (b.length = cfg.limit →
      handleRequest cfg ext req = afterParse cfg ext req ∧
      (handleRequest cfg ext req).2 ≠ Outcome.direct payloadTooLargeResp) ∧
    (b.length = cfg.limit + 1 →
      handleRequest cfg ext req = ([], Outcome.direct payloadTooLargeResp) ∧
      (∀ c, Ev.sign c ∉ (handleRequest cfg ext req).1) ∧
      (∀ f, Ev.upstream f ∉ (handleRequest cfg ext req).1)) := by
  constructor
  · intro hlen
    have hw : bodyWithinLimit cfg req = true := by
      simp [bodyWithinLimit, hb, hlen]
    have h : handleRequest cfg ext req = afterParse cfg ext req := by
      simp [handleRequest, hw]
    exact ⟨h, by rw [h]; exact afterParse_not_payloadTooLarge cfg ext req⟩
  · intro hlen
    have hw : bodyWithinLimit cfg req = false := by
      simp [bodyWithinLimit, hb, hlen]
    have h : handleRequest cfg ext req = ([], Outcome.direct payloadTooLargeResp) := by
      simp [handleRequest, hw]
    refine ⟨h, ?_, ?_⟩ <;> rw [h] <;> simp

/-- Witness for C7 at the 3-byte limit: the 3-byte body proceeds past the
parser, the 4-byte body is rejected 413 with nothing signed or forwarded. -/
theorem body_limit_boundary_witness :
    (handleRequest wCfgMain wExt wReqPost = afterParse wCfgMain wExt wReqPost ∧
      (handleRequest wCfgMain wExt wReqPost).2 ≠ Outcome.direct payloadTooLargeResp) ∧
    (handleRequest wCfgMain wExt wReqPost4 = ([], Outcome.direct payloadTooLargeResp) ∧
      (∀ c, Ev.sign c ∉ (handleRequest wCfgMain wExt wReqPost4).1) ∧
      (∀ f, Ev.upstream f ∉ (handleRequest wCfgMain wExt wReqPost4).1)) :=
  ⟨(body_limit_boundary wCfgMain wExt wReqPost [1, 2, 3] rfl).1 rfl,
   (body_limit_boundary wCfgMain wExt wReqPost4 [1, 2, 3, 4] rfl).2 rfl⟩

/-- Counterexample to claim C8 as stated: the cache regex of line 281 is an
unanchored substring search, so a request for `/data.json` — whose path does
not end in any static-asset suffix — still gets the 24-hour public
cache-control header (because `.js` occurs inside `.json`). -/
theorem cache_header_substring_counterexample :
    getRespHeader (applyProxyRes "/data.json" wUpResp).headers "Cache-Control"
      = some "public, max-age=86400" ∧
    claimStaticSuffix "/data.json" = false ∧
    getRespHeader wUpResp.headers "Cache-Control" = none := by decide

/-- Claim C8, amended: for an upstream response that carries no cache-control
header of its own, the relayed response carries
`Cache-Control: public, max-age=86400` if and only if `.css`, `.js`, `.img`
or `.font` occurs as a substring anywhere in the request URL (not only as a
suffix); the status, body, and every other header are relayed verbatim. -/
theorem cache_header_amended (url : String) (r : UpResp)
    (hcc : getRespHeader r.headers "Cache-Control" = none) :
    ((getRespHeader (applyProxyRes url r).headers "Cache-Control"
        = some "public, max-age=86400") ↔
      (∃ pre suf, url.toList = pre ++ ".css".toList ++ suf) ∨
      (∃ pre suf, url.toList = pre ++ ".js".toList ++ suf) ∨
      (∃ pre suf, url.toList = pre ++ ".img".toList ++ suf) ∨
      (∃ pre suf, url.toList = pre ++ ".font".toList ++ suf)) ∧
    (applyProxyRes url r).status = r.status ∧
    (applyProxyRes url r).bodyBytes = r.bodyBytes ∧
    (∀ k, lowerStr k ≠ lowerStr "Cache-Control" →
      getRespHeader (applyProxyRes url r).headers k = getRespHeader r.headers k) := by
  cases hm : staticAssetMatch url with
  | true =>
    have happ : applyProxyRes url r
        = { r with headers := setRespHeader r.headers "Cache-Control" "public, max-age=86400" } := by
      simp [applyProxyRes, hm]
    rw [happ]
    refine ⟨?_, rfl, rfl, ?_⟩
    · exact iff_of_true (getRespHeader_setRespHeader_self _ _ _) ((staticAssetMatch_iff url).mp hm)
    · intro k hk
      exact getRespHeader_setRespHeader_ne _ _ _ _ (Ne.symm hk)
  | false =>
    have happ : applyProxyRes url r = r := by
      simp [applyProxyRes, hm]
    rw [happ]
    refine ⟨?_, rfl, rfl, fun k _ => rfl⟩
    apply iff_of_false
    · rw [hcc]
      simp
    · intro hcontra
      have hcm := (staticAssetMatch_iff url).mpr hcontra
      rw [hm] at hcm
      cases hcm

/-- Witness for the amended C8 at `/app.css` over a cache-control-free
upstream response. -/
theorem cache_header_amended_witness :
    ((getRespHeader (applyProxyRes "/app.css" wUpResp).headers "Cache-Control"
        = some "public, max-age=86400") ↔
      (∃ pre suf, "/app.css".toList = pre ++ ".css".toList ++ suf) ∨
      (∃ pre suf, "/app.css".toList = pre ++ ".js".toList ++ suf) ∨
      (∃ pre suf, "/app.css".toList = pre ++ ".img".toList ++ suf) ∨
      (∃ pre suf, "/app.css".toList = pre ++ ".font".toList ++ suf)) ∧
    (applyProxyRes "/app.css" wUpResp).status = wUpResp.status ∧
    (applyProxyRes "/app.css" wUpResp).bodyBytes = wUpResp.bodyBytes ∧
    (∀ k, lowerStr k ≠ lowerStr "Cache-Control" →
      getRespHeader (applyProxyRes "/app.css" wUpResp).headers k
        = getRespHeader wUpResp.headers k) :=
  cache_header_amended "/app.css" wUpResp (by decide)

/-- Claim C9: with an explicit profile configured, the provider constructed
by the first (SSO) attempt and the one constructed by the fallback branch
are identical — the same `fromNodeProviderChain({ profile })` call — so for
any fixed resolution behaviour the whole try/fallback collapses to a single
resolution of that one provider: the fallback succeeds or fails exactly as a
repeat of the first attempt. -/
theorem sso_fallback_identical :
    (∀ p, ssoAttemptArgs p = fallbackAttemptArgs p) ∧
    (∀ (resolve : ProviderArgs → Except String Creds) (p : String),
      initializeCredentialsResolve resolve (some p) = resolve (ssoAttemptArgs p)) := by
  refine ⟨fun p => rfl, fun resolve p => ?_⟩
  have hred : initializeCredentialsResolve resolve (some p)
      = match resolve (ssoAttemptArgs p) with
        | Except.ok c => Except.ok c
        | Except.error _ => resolve (fallbackAttemptArgs p) := rfl
  rw [hred]
  cases h : resolve (ssoAttemptArgs p) with
  | ok c => rfl
  | error e => exact h

/-- Claim C10: a nonempty `ENDPOINT` environment variable wins over any
positional argument — the chosen endpoint is the environment value whatever
the positional is — and both the upstream forwarding target and the Host
placed into the canonical request for signing are then derived from that
environment value. -/
theorem endpoint_env_priority (e : String) (pos pos2 : Option String) (cfg : AppConfig)
    (ext : Ext) (req : Req) (he : e ≠ "") :
    endpointChoice (some e) pos = some e ∧
    endpointChoice (some e) pos = endpointChoice (some e) pos2 ∧
    (cfg.endpoint = e → ∀ c, Ev.sign c ∈ (handleRequest cfg ext req).1 →
      jsGet c.headers "Host" = urlHostname e) ∧
    (cfg.endpoint = e → ∀ f, Ev.upstream f ∈ (handleRequest cfg ext req).1 →
      f.target = targetOf e) := by
  have h1 : endpointChoice (some e) pos = some e := by
    simp [endpointChoice, jsOr, he]
  have h2 : endpointChoice (some e) pos2 = some e := by
    simp [endpointChoice, jsOr, he]
  refine ⟨h1, h1.trans h2.symm, ?_, ?_⟩
  · intro hcfg c hmem
    rcases handleRequest_shape cfg ext req with h | ⟨resp, h⟩ | ⟨host, b, hu, hbody, h⟩
    · rw [h] at hmem
      simp at hmem
    · rw [h] at hmem
      simp at hmem
    · rw [h] at hmem
      simp at hmem
      subst hmem
      rw [canonical_Host, ← hcfg, hu]
  · intro hcfg f hmem
    rcases handleRequest_shape cfg ext req with h | ⟨resp, h⟩ | ⟨host, b, hu, hbody, h⟩
    · rw [h] at hmem
      simp at hmem
    · rw [h] at hmem
      simp at hmem
    · rw [h] at hmem
      simp at hmem
      subst hmem
      rw [← hcfg]
      rfl

/-- Witness for C10 at the concrete configuration: the environment endpoint
wins over a positional argument, the signed canonical request's Host is its
hostname, and the forwarded target is derived from it. -/
theorem endpoint_env_priority_witness :
    endpointChoice (some "https://search.us-west-2.es.amazonaws.com") (some "positional.arg")
      = some "https://search.us-west-2.es.amazonaws.com" ∧
    endpointChoice (some "https://search.us-west-2.es.amazonaws.com") (some "positional.arg")
      = endpointChoice (some "https://search.us-west-2.es.amazonaws.com") none ∧
    jsGet (canonicalOf wExt wReqPost [1, 2, 3] "search.us-west-2.es.amazonaws.com").headers "Host"
      = urlHostname "https://search.us-west-2.es.amazonaws.com" ∧
    (forwardedOf wExt wCfgMain wReqPost [1, 2, 3] "search.us-west-2.es.amazonaws.com").target
      = targetOf "https://search.us-west-2.es.amazonaws.com" :=
  ⟨(endpoint_env_priority "https://search.us-west-2.es.amazonaws.com" (some "positional.arg")
      none wCfgMain wExt wReqPost (by decide)).1,
   (endpoint_env_priority "https://search.us-west-2.es.amazonaws.com" (some "positional.arg")
      none wCfgMain wExt wReqPost (by decide)).2.1,
   (endpoint_env_priority "https://search.us-west-2.es.amazonaws.com" (some "positional.arg")
      none wCfgMain wExt wReqPost (by decide)).2.2.1 rfl
     (canonicalOf wExt wReqPost [1, 2, 3] "search.us-west-2.es.amazonaws.com") (by decide),
   (endpoint_env_priority "https://search.us-west-2.es.amazonaws.com" (some "positional.arg")
      none wCfgMain wExt wReqPost (by decide)).2.2.2 rfl
     (forwardedOf wExt wCfgMain wReqPost [1, 2, 3] "search.us-west-2.es.amazonaws.com")
     (by decide)⟩

end AwsOsDash
